import Mathlib

/-!
Shallow embedding of `reporter.go` from zakhio/go-metrics-influxdb.

The repository carries two near-identical copies of the reporter; they differ
only in the percentile set requested from histogram/timer snapshots
(`{0.5, 0.75, 0.95, 0.99}` vs the extended set with `0.999, 0.9999`) and in
the name of the per-statistic tag key (`"bucketId"` vs `"bucket"`).  We embed
both as the two values of `Variant` and keep everything else shared, exactly
as the two files share it.

The metrics registry (rcrowley/go-metrics) and the InfluxDB client are
external collaborators: a metric is modelled by the values its snapshot
exposes (`Count`, `Value`, `Mean`, `Percentiles`, `Rate1`, ...), and the
remote client by the URL/token it was constructed from.  `float64` values are
modelled as `ℚ`; no claim compares floating-point results.  `time.Time` is
modelled as `Int` nanoseconds; `time.Duration` as `Int` nanoseconds.
Go maps (tags, field sets) are modelled as association lists; Go map
assignment `m[k] = v` is `tagSet`, which removes any entry for `k` and
appends `(k, v)`, preserving lookup semantics.
-/

namespace Reporter

/-- A field value in a point: Go `int64` (counter counts, integer gauges)
or Go `float64` (everything else), the latter modelled as `ℚ`. -/
inductive FieldValue where
  | i : Int → FieldValue
  | f : ℚ → FieldValue
deriving DecidableEq, Repr

/-- A Go `map[string]string`, as an association list. -/
abbrev TagMap := List (String × String)

/-- Go map read `m[k]`: the value at the first entry with key `k`. -/
def tagLookup (m : TagMap) (k : String) : Option String :=
  (m.find? (fun p => p.1 == k)).map Prod.snd

/-- Go map assignment `m[k] = v`: drop any entry for `k`, append `(k, v)`. -/
def tagSet (m : TagMap) (k v : String) : TagMap :=
  m.filter (fun p => p.1 != k) ++ [(k, v)]

/-- `write.Point`: measurement, tag set, field set, timestamp (ns). -/
structure Point where
  measurement : String
  tags : TagMap
  fields : List (String × FieldValue)
  time : Int
deriving DecidableEq, Repr

/-- `write.NewPoint(measurement, tags, fields, ts)`. -/
def NewPoint (measurement : String) (tags : TagMap)
    (fields : List (String × FieldValue)) (time : Int) : Point :=
  ⟨measurement, tags, fields, time⟩

/-- Snapshot of a `metrics.Histogram` (external registry): the values
`send` reads from it.  `Percentiles(ps)` returns one value per requested
quantile; we model it by the per-quantile function `percentile`. -/
structure HistogramSnapshot where
  count : Int
  max : Int
  min : Int
  mean : ℚ
  stddev : ℚ
  variance : ℚ
  percentile : ℚ → ℚ

/-- Snapshot of a `metrics.Meter`. -/
structure MeterSnapshot where
  count : Int
  rate1 : ℚ
  rate5 : ℚ
  rate15 : ℚ
  rateMean : ℚ

/-- Snapshot of a `metrics.Timer`. -/
structure TimerSnapshot where
  count : Int
  max : Int
  min : Int
  mean : ℚ
  stddev : ℚ
  variance : ℚ
  percentile : ℚ → ℚ
  rate1 : ℚ
  rate5 : ℚ
  rate15 : ℚ
  rateMean : ℚ

/-- A registry entry's metric instance, by the kind `send`'s type switch
discriminates on; `unsupported` is any instance of none of those kinds
(no `case` of the switch matches it). -/
inductive Metric where
  | counter : Int → Metric
  | gauge : Int → Metric
  | gaugeFloat64 : ℚ → Metric
  | histogram : HistogramSnapshot → Metric
  | meter : MeterSnapshot → Metric
  | timer : TimerSnapshot → Metric
  | unsupported : Metric

/-- `metrics.Registry`, observed through `Each`: the (name, metric)
pairs the iteration callback is invoked on. -/
abbrev Registry := List (String × Metric)

/-- The two copies of `reporter.go` in the repository. -/
inductive Variant where
  | v1   -- first copy: tag key "bucketId", four percentiles
  | v2   -- second copy: tag key "bucket", six percentiles
deriving DecidableEq, Repr

/-- The key `bucketTags` assigns the statistic name to:
`"bucketId"` in the first copy, `"bucket"` in the second. -/
def statTagKey : Variant → String
  | .v1 => "bucketId"
  | .v2 => "bucket"

/-- `bucketTags(bucket, tags)`: copy `tags` into a fresh map and set the
per-statistic key to `bucket`. -/
def bucketTags (v : Variant) (bucket : String) (tags : TagMap) : TagMap :=
  tagSet tags (statTagKey v) bucket

/-- The `fields` map built for a `metrics.Histogram`, in source order.
`ps[i]` is the snapshot's percentile at the i-th requested quantile. -/
def histogramFields (v : Variant) (ms : HistogramSnapshot) : List (String × ℚ) :=
  [("count", (ms.count : ℚ)),
   ("max", (ms.max : ℚ)),
   ("mean", ms.mean),
   ("min", (ms.min : ℚ)),
   ("stddev", ms.stddev),
   ("variance", ms.variance),
   ("p50", ms.percentile 0.5),
   ("p75", ms.percentile 0.75),
   ("p95", ms.percentile 0.95),
   ("p99", ms.percentile 0.99)] ++
  (match v with
   | .v1 => []
   | .v2 => [("p999", ms.percentile 0.999), ("p9999", ms.percentile 0.9999)])

/-- The `fields` map built for a `metrics.Meter`, in source order. -/
def meterFields (ms : MeterSnapshot) : List (String × ℚ) :=
  [("count", (ms.count : ℚ)),
   ("m1", ms.rate1),
   ("m5", ms.rate5),
   ("m15", ms.rate15),
   ("mean", ms.rateMean)]

/-- The `fields` map built for a `metrics.Timer`, in source order. -/
def timerFields (v : Variant) (ms : TimerSnapshot) : List (String × ℚ) :=
  [("count", (ms.count : ℚ)),
   ("max", (ms.max : ℚ)),
   ("mean", ms.mean),
   ("min", (ms.min : ℚ)),
   ("stddev", ms.stddev),
   ("variance", ms.variance),
   ("p50", ms.percentile 0.5),
   ("p75", ms.percentile 0.75),
   ("p95", ms.percentile 0.95),
   ("p99", ms.percentile 0.99)] ++
  (match v with
   | .v1 => []
   | .v2 => [("p999", ms.percentile 0.999), ("p9999", ms.percentile 0.9999)]) ++
  [("m1", ms.rate1),
   ("m5", ms.rate5),
   ("m15", ms.rate15),
   ("meanrate", ms.rateMean)]

/-- The body of `send`'s `registry.Each` callback: the points appended for
one registry entry `(name, metric)`. -/
def pointsForMetric (v : Variant) (measurement : String) (tags : TagMap)
    (now : Int) (name : String) (m : Metric) : List Point :=
  match m with
  | .counter c =>
      [NewPoint measurement tags [(name ++ ".count", .i c)] now]
  | .gauge g =>
      [NewPoint measurement tags [(name ++ ".gauge", .i g)] now]
  | .gaugeFloat64 g =>
      [NewPoint measurement tags [(name ++ ".gauge", .f g)] now]
  | .histogram ms =>
      (histogramFields v ms).map (fun kv =>
        NewPoint measurement (bucketTags v kv.1 tags)
          [(name ++ ".histogram", .f kv.2)] now)
  | .meter ms =>
      (meterFields ms).map (fun kv =>
        NewPoint measurement (bucketTags v kv.1 tags)
          [(name ++ ".meter", .f kv.2)] now)
  | .timer ms =>
      (timerFields v ms).map (fun kv =>
        NewPoint measurement (bucketTags v kv.1 tags)
          [(name ++ ".timer", .f kv.2)] now)
  | .unsupported => []

/-- `time.Time.Truncate(d)`: round down to a multiple of `d` since the zero
time; `d <= 0` leaves the time unchanged. -/
def timeTruncate (t d : Int) : Int :=
  if d ≤ 0 then t else t - t % d

/-- The point batch one call of `send` builds: `now` (already aligned)
is fixed, then `registry.Each` appends `pointsForMetric` per entry. -/
def sendPoints (v : Variant) (measurement : String) (tags : TagMap)
    (registry : Registry) (now : Int) : List Point :=
  registry.flatMap (fun nm => pointsForMetric v measurement tags now nm.1 nm.2)

/-- The InfluxDB client handle, by what `client.NewClient(url, token)` was
given (the client itself is an external collaborator). -/
structure Client where
  serverURL : String
  token : String
deriving DecidableEq, Repr

/-- The `reporter` struct.  Field names follow the first copy of the source;
the second copy names them `reg`/`url`/`org`/`bucket` and stores the parsed
URL instead of its rendering, with the same construction and lifecycle. -/
structure Rep where
  registry : Registry
  interval : Int
  align : Bool
  serverURL : String
  organizationId : String
  bucketId : String
  measurement : String
  token : String
  tags : TagMap
  client : Option Client   -- nil before makeClient runs

/-- `(*reporter).makeClient`: replace the client handle wholesale with one
built from the reporter's URL string and token. -/
def makeClient (r : Rep) : Rep :=
  { r with client := some ⟨r.serverURL, r.token⟩ }

/-- The timestamp `send` stamps every point with: `time.Now()` truncated to
the interval when alignment is on, unmodified otherwise. -/
def alignedNow (r : Rep) (now : Int) : Int :=
  if r.align then timeTruncate now r.interval else now

/-- One call of `(*reporter).send` at wall-clock `now`: the batch written
by the single blocking `WritePoint` call. -/
def sendTick (v : Variant) (r : Rep) (now : Int) : List Point :=
  sendPoints v r.measurement r.tags r.registry (alignedNow r now)

/-- One wake-up of `(*reporter).run`'s select loop.  `intervalTick` carries
the wall-clock time and the (external) result of the blocking write;
`pingTick` carries the (external) result of `client.Ready`. -/
inductive Event where
  | intervalTick : Int → Option String → Event
  | pingTick : Bool → Option String → Event

/-- One iteration of `run`'s `for { select { ... } }`: returns the reporter
state afterwards, the points `send` submitted (empty on a ping branch),
and the log lines printed.  A write error is logged and swallowed; a
not-ready ping is logged and answered by `makeClient`. -/
def step (v : Variant) (r : Rep) (e : Event) : Rep × List Point × List String :=
  match e with
  | .intervalTick now werr =>
      let pts := sendTick v r now
      match werr with
      | some msg => (r, pts, ["unable to send metrics to InfluxDB. err=" ++ msg])
      | none => (r, pts, [])
  | .pingTick ready perr =>
      if ready then (r, [], [])
      else (makeClient r,
            [],
            ["got error while sending a ping to InfluxDB, trying to recreate client. err="
              ++ perr.getD "<nil>"])

/-- `run` driven by a finite prefix of wake-ups: the final state and the
batch submitted by each interval tick, in order. -/
def runEvents (v : Variant) (r : Rep) : List Event → Rep × List (List Point)
  | [] => (r, [])
  | e :: es =>
      let s := step v r e
      let rest := runEvents v s.1 es
      match e with
      | .intervalTick _ _ => (rest.1, s.2.1 :: rest.2)
      | .pingTick _ _ => rest

/-- A parsed `url.URL`, by its `String()` rendering (parsing itself is
`net/url`, an external collaborator supplied as a function argument). -/
structure URL where
  rendered : String

/-- What `InfluxDBWithTags` does before blocking in `run`. -/
inductive StartResult where
  | notStarted : String → StartResult   -- parse failed: log line, return
  | started : Rep → StartResult         -- state with which `run` is entered

/-- `InfluxDBWithTags`: parse the URL; on failure log and return without a
client or loop; on success build the reporter, `makeClient`, enter `run`. -/
def InfluxDBWithTags (parse : String → Option URL) (registry : Registry)
    (interval : Int) (serverUrl organizationID bucketID measurement token : String)
    (tags : TagMap) (alignTimestamps : Bool) : StartResult :=
  match parse serverUrl with
  | none => .notStarted ("unable to parse InfluxDB serverURL " ++ serverUrl)
  | some u =>
      .started (makeClient
        { registry := registry
          interval := interval
          align := alignTimestamps
          serverURL := u.rendered
          organizationId := organizationID
          bucketId := bucketID
          measurement := measurement
          token := token
          tags := tags
          client := none })

/-- The statistic names a histogram emits one point for, per variant. -/
def histogramStatNames : Variant → List String
  | .v1 => ["count", "max", "mean", "min", "stddev", "variance",
            "p50", "p75", "p95", "p99"]
  | .v2 => ["count", "max", "mean", "min", "stddev", "variance",
            "p50", "p75", "p95", "p99", "p999", "p9999"]

/-- The statistic names a meter emits one point for. -/
def meterStatNames : List String :=
  ["count", "m1", "m5", "m15", "mean"]

/-- The statistic names a timer emits one point for, per variant: the
union of the histogram statistics and the meter-rate statistics. -/
def timerStatNames : Variant → List String
  | .v1 => ["count", "max", "mean", "min", "stddev", "variance",
            "p50", "p75", "p95", "p99", "m1", "m5", "m15", "meanrate"]
  | .v2 => ["count", "max", "mean", "min", "stddev", "variance",
            "p50", "p75", "p95", "p99", "p999", "p9999",
            "m1", "m5", "m15", "meanrate"]

/-- A concrete meter snapshot, for concrete evaluations. -/
def meterSnapEx : MeterSnapshot := ⟨0, 0, 0, 0, 0⟩

/-- A concrete histogram snapshot, for concrete evaluations. -/
def histSnapEx : HistogramSnapshot := ⟨0, 0, 0, 0, 0, 0, fun _ => 0⟩

/-- A concrete timer snapshot, for concrete evaluations. -/
def timerSnapEx : TimerSnapshot := ⟨0, 0, 0, 0, 0, 0, fun _ => 0, 0, 0, 0, 0⟩

/-- A concrete reporter with alignment on and a 30-second interval (in ns),
for concrete evaluations. -/
def alignedRepEx : Rep :=
  { registry := [("x", .counter 5)]
    interval := 30000000000
    align := true
    serverURL := "http://localhost:9999"
    organizationId := "org"
    bucketId := "bkt"
    measurement := "measurement"
    token := "tok"
    tags := []
    client := some ⟨"http://localhost:9999", "tok"⟩ }

/-- A concrete reporter with alignment off, for concrete evaluations. -/
def plainRepEx : Rep :=
  { alignedRepEx with align := false }

end Reporter

namespace Reporter

/-! Association-list facts about the Go-map model. -/

theorem tagLookup_tagSet_self (m : TagMap) (k val : String) :
    tagLookup (tagSet m k val) k = some val := by
  have hnone : (m.filter (fun p => p.1 != k)).find? (fun p => p.1 == k) = none := by
    rw [List.find?_eq_none]
    intro x hx
    have hx2 := (List.mem_filter.mp hx).2
    simp only [bne_iff_ne, ne_eq, decide_eq_true_eq] at hx2
    simp [hx2]
  unfold tagLookup tagSet
  rw [List.find?_append, hnone]
  simp [List.find?]

theorem tagSet_eq_append (m : TagMap) (k val : String)
    (hk : k ∉ m.map Prod.fst) : tagSet m k val = m ++ [(k, val)] := by
  unfold tagSet
  rw [List.filter_eq_self.mpr]
  intro a ha
  simp only [bne_iff_ne, ne_eq, decide_eq_true_eq]
  intro hak
  exact hk (List.mem_map.mpr ⟨a, ha, hak⟩)

theorem tagLookup_of_mem (m : TagMap) (a b : String)
    (hnd : (m.map Prod.fst).Nodup) (hm : (a, b) ∈ m) :
    tagLookup m a = some b := by
  induction m with
  | nil => cases hm
  | cons hd tl ih =>
      rcases List.mem_cons.mp hm with h | h
      · subst h
        unfold tagLookup
        rw [List.find?_cons_of_pos _ (by simp)]
        rfl
      · have hhd : ¬ ((hd.1 == a) = true) := by
          simp only [beq_iff_eq]
          intro hh
          have hmem : a ∈ tl.map Prod.fst := List.mem_map.mpr ⟨(a, b), h, rfl⟩
          exact (List.nodup_cons.mp hnd).1 (hh ▸ hmem)
        have hf : (hd.1 == a) = false := by simpa using hhd
        have htl := ih (List.nodup_cons.mp hnd).2 h
        unfold tagLookup at htl ⊢
        simp only [List.find?, hf]
        exact htl

theorem tagLookup_append_left (m m2 : TagMap) (a b : String)
    (h : tagLookup m a = some b) : tagLookup (m ++ m2) a = some b := by
  unfold tagLookup at h ⊢
  rw [List.find?_append]
  cases hf : m.find? (fun p => p.1 == a) with
  | none => rw [hf] at h; simp at h
  | some x =>
      rw [hf] at h
      simpa using h

/-- Every point built by the `Each` callback is stamped with the tick's
single `now`. -/
theorem pointsForMetric_time (v : Variant) (meas : String) (tags : TagMap)
    (now : Int) (n : String) (m : Metric) :
    ∀ p ∈ pointsForMetric v meas tags now n m, p.time = now := by
  intro p hp
  cases m <;> simp only [pointsForMetric, List.mem_singleton, List.mem_map,
    List.not_mem_nil] at hp
  · subst hp; rfl
  · subst hp; rfl
  · subst hp; rfl
  · obtain ⟨kv, _, h⟩ := hp; subst h; rfl
  · obtain ⟨kv, _, h⟩ := hp; subst h; rfl
  · obtain ⟨kv, _, h⟩ := hp; subst h; rfl

/-- Every point in a `send` batch is stamped with the batch's `now`. -/
theorem sendPoints_time (v : Variant) (meas : String) (tags : TagMap)
    (reg : Registry) (now : Int) :
    ∀ p ∈ sendPoints v meas tags reg now, p.time = now := by
  intro p hp
  obtain ⟨nm, hnm, hpm⟩ := List.mem_flatMap.mp hp
  exact pointsForMetric_time v meas tags now nm.1 nm.2 p hpm

/-- C1: for a registry containing exactly one metric, a counter named "x"
whose count is 5, one `send` produces exactly one point, and that point's
field set holds exactly one field, keyed "x.count" with value 5. -/
theorem counter_x_single_point (v : Variant) (measurement : String)
    (tags : TagMap) (now : Int) :
    sendPoints v measurement tags [("x", Metric.counter 5)] now =
      [NewPoint measurement tags [("x.count", FieldValue.i 5)] now] := rfl

/-- C2: a timer named n emits exactly one point per statistic in the union
of the histogram statistics and the meter-rate statistics (count, max,
mean, min, stddev, variance, the configured percentiles, m1, m5, m15,
meanrate), each point carrying the single field key "n.timer" and the tag
identifying its statistic. -/
theorem timer_point_per_statistic (v : Variant) (measurement n : String)
    (tags : TagMap) (now : Int) (ms : TimerSnapshot) :
    ((pointsForMetric v measurement tags now n (.timer ms)).map
        (fun p => p.fields.map Prod.fst)
      = (timerStatNames v).map (fun _ => [n ++ ".timer"]))
    ∧ ((pointsForMetric v measurement tags now n (.timer ms)).map
        (fun p => tagLookup p.tags (statTagKey v))
      = (timerStatNames v).map some) := by
  cases v <;>
    simp [pointsForMetric, timerFields, timerStatNames, NewPoint, bucketTags,
      statTagKey, tagLookup_tagSet_self]

/-- C3: for a metric named n, the field keys produced are "n.count" for a
counter, "n.gauge" for a gauge or float gauge, "n.histogram" for a
histogram, "n.meter" for a meter and "n.timer" for a timer, whatever the
configured tag set. -/
theorem field_key_naming (v : Variant) (measurement n : String)
    (tags : TagMap) (now : Int) (c g : Int) (gf : ℚ)
    (hs : HistogramSnapshot) (ms : MeterSnapshot) (ts : TimerSnapshot) :
    ((pointsForMetric v measurement tags now n (.counter c)).map
        (fun p => p.fields.map Prod.fst) = [[n ++ ".count"]])
    ∧ ((pointsForMetric v measurement tags now n (.gauge g)).map
        (fun p => p.fields.map Prod.fst) = [[n ++ ".gauge"]])
    ∧ ((pointsForMetric v measurement tags now n (.gaugeFloat64 gf)).map
        (fun p => p.fields.map Prod.fst) = [[n ++ ".gauge"]])
    ∧ ((pointsForMetric v measurement tags now n (.histogram hs)).map
        (fun p => p.fields.map Prod.fst)
      = (histogramStatNames v).map (fun _ => [n ++ ".histogram"]))
    ∧ ((pointsForMetric v measurement tags now n (.meter ms)).map
        (fun p => p.fields.map Prod.fst)
      = meterStatNames.map (fun _ => [n ++ ".meter"]))
    ∧ ((pointsForMetric v measurement tags now n (.timer ts)).map
        (fun p => p.fields.map Prod.fst)
      = (timerStatNames v).map (fun _ => [n ++ ".timer"])) := by
  cases v <;>
    simp [pointsForMetric, histogramFields, meterFields, timerFields,
      histogramStatNames, meterStatNames, timerStatNames, NewPoint]

/-- C10: a registry entry whose instance matches none of the supported
kinds contributes no point and no error: the batch is exactly the one the
remaining entries produce. -/
theorem unsupported_metric_skipped (v : Variant) (measurement : String)
    (tags : TagMap) (now : Int) (l1 l2 : Registry) (n : String) :
    sendPoints v measurement tags (l1 ++ (n, Metric.unsupported) :: l2) now
      = sendPoints v measurement tags (l1 ++ l2) now := by
  simp [sendPoints, pointsForMetric]

/-- C5: with alignment on and a positive interval, the tick's timestamp is
the wall-clock time rounded down to a multiple of the interval (so a tick
at 12:00:17 with a 30-second interval is stamped 12:00:00); with alignment
off it is the unmodified tick time; and it is the timestamp every point of
the tick carries. -/
theorem timestamp_alignment (v : Variant) (r : Rep) (now : Int)
    (h : 0 < r.interval) :
    (r.align = true →
       r.interval ∣ alignedNow r now
       ∧ alignedNow r now ≤ now
       ∧ now < alignedNow r now + r.interval)
    ∧ (r.align = false → alignedNow r now = now)
    ∧ ∀ p ∈ sendTick v r now, p.time = alignedNow r now := by
  refine ⟨?_, ?_, ?_⟩
  · intro ha
    have hne : r.interval ≠ 0 := ne_of_gt h
    have hmod0 : 0 ≤ now % r.interval := Int.emod_nonneg now hne
    have hmodlt : now % r.interval < r.interval := Int.emod_lt_of_pos now h
    have heq : alignedNow r now = now - now % r.interval := by
      simp [alignedNow, ha, timeTruncate, not_le.mpr h]
    refine ⟨?_, by omega, by omega⟩
    have hmul : alignedNow r now = r.interval * (now / r.interval) := by
      rw [heq, Int.emod_def]; ring
    rw [hmul]
    exact dvd_mul_right _ _
  · intro ha; simp [alignedNow, ha]
  · intro p hp
    exact sendPoints_time v r.measurement r.tags r.registry (alignedNow r now) p hp

/-- C5 witness: the theorem at the concrete aligned reporter (30 s interval
in nanoseconds) and a tick at second 43217 (12:00:17), whose timestamp
evaluates to second 43200 (12:00:00); the unaligned reporter keeps 43217. -/
theorem timestamp_alignment_witness :
    (0 : Int) < alignedRepEx.interval
    ∧ ((alignedRepEx.align = true →
          alignedRepEx.interval ∣ alignedNow alignedRepEx 43217000000000
          ∧ alignedNow alignedRepEx 43217000000000 ≤ 43217000000000
          ∧ (43217000000000 : Int)
              < alignedNow alignedRepEx 43217000000000 + alignedRepEx.interval)
       ∧ (alignedRepEx.align = false →
            alignedNow alignedRepEx 43217000000000 = 43217000000000)
       ∧ ∀ p ∈ sendTick .v1 alignedRepEx 43217000000000,
           p.time = alignedNow alignedRepEx 43217000000000)
    ∧ alignedNow alignedRepEx 43217000000000 = 43200000000000
    ∧ alignedNow plainRepEx 43217000000000 = 43217000000000 :=
  ⟨by decide, timestamp_alignment .v1 alignedRepEx 43217000000000 (by decide),
   by decide, by decide⟩

/-- C6: all points emitted by one invocation of `send` carry the identical
timestamp, the single aligned `now` computed at the start of the tick. -/
theorem tick_points_share_timestamp (v : Variant) (r : Rep) (now : Int) :
    ∀ p ∈ sendTick v r now, p.time = alignedNow r now := fun p hp =>
  sendPoints_time v r.measurement r.tags r.registry (alignedNow r now) p hp

/-- C6 witness: the theorem at the concrete aligned reporter, on the one
point its registry produces. -/
theorem tick_points_share_timestamp_witness :
    (NewPoint "measurement" [] [("x.count", FieldValue.i 5)] 43200000000000
        ∈ sendTick .v1 alignedRepEx 43217000000000)
    ∧ (NewPoint "measurement" [] [("x.count", FieldValue.i 5)] 43200000000000).time
        = alignedNow alignedRepEx 43217000000000 :=
  ⟨by decide,
   tick_points_share_timestamp .v1 alignedRepEx 43217000000000 _ (by decide)⟩

/-- C4 counterexample: when the caller-supplied default tags already use
the statistic tag key (here tag "bucket" = "foo", with the second copy of
the reporter), `bucketTags` overwrites that entry, so a meter's points
neither contain the default tag nor add one to the tag count. -/
theorem tag_composition_counterexample :
    ¬ (∀ p ∈ pointsForMetric .v2 "m" [("bucket", "foo")] 0 "n"
          (.meter meterSnapEx),
         (∀ kv ∈ [(("bucket" : String), ("foo" : String))],
            tagLookup p.tags kv.1 = some kv.2)
         ∧ p.tags.length = [(("bucket" : String), ("foo" : String))].length + 1) := by
  decide

/-- C4 (amended): provided the default tag map has pairwise-distinct keys
and does not itself use the statistic tag key ("bucketId" in the first
copy, "bucket" in the second), every histogram/meter/timer point carries
all default tags plus exactly one additional statistic-identifying tag,
and every counter/gauge point carries exactly the default tags,
unmodified. -/
theorem tag_composition (v : Variant) (meas n : String) (tags : TagMap)
    (now : Int) (hnd : (tags.map Prod.fst).Nodup)
    (hk : statTagKey v ∉ tags.map Prod.fst)
    (c g : Int) (gf : ℚ) (hs : HistogramSnapshot) (ms : MeterSnapshot)
    (ts : TimerSnapshot) :
    (∀ m ∈ [Metric.histogram hs, Metric.meter ms, Metric.timer ts],
       ∀ p ∈ pointsForMetric v meas tags now n m,
         (∀ kv ∈ tags, tagLookup p.tags kv.1 = some kv.2)
         ∧ p.tags.length = tags.length + 1
         ∧ ∃ s, tagLookup p.tags (statTagKey v) = some s
             ∧ p.tags = tags ++ [(statTagKey v, s)])
    ∧ (∀ m ∈ [Metric.counter c, Metric.gauge g, Metric.gaugeFloat64 gf],
       ∀ p ∈ pointsForMetric v meas tags now n m, p.tags = tags) := by
  have happ : ∀ s, bucketTags v s tags = tags ++ [(statTagKey v, s)] :=
    fun s => tagSet_eq_append tags (statTagKey v) s hk
  have hper : ∀ s,
      (∀ kv ∈ tags, tagLookup (bucketTags v s tags) kv.1 = some kv.2)
      ∧ (bucketTags v s tags).length = tags.length + 1
      ∧ tagLookup (bucketTags v s tags) (statTagKey v) = some s := by
    intro s
    refine ⟨?_, ?_, tagLookup_tagSet_self tags (statTagKey v) s⟩
    · intro kv hkv
      obtain ⟨a, b⟩ := kv
      rw [happ]
      exact tagLookup_append_left tags _ a b (tagLookup_of_mem tags a b hnd hkv)
    · rw [happ]; simp
  have handle : ∀ (suffix : String) (fields : List (String × ℚ)),
      ∀ p ∈ fields.map (fun kv =>
          NewPoint meas (bucketTags v kv.1 tags)
            [(n ++ suffix, FieldValue.f kv.2)] now),
        (∀ kv ∈ tags, tagLookup p.tags kv.1 = some kv.2)
        ∧ p.tags.length = tags.length + 1
        ∧ ∃ s, tagLookup p.tags (statTagKey v) = some s
            ∧ p.tags = tags ++ [(statTagKey v, s)] := by
    intro suffix fields p hp
    obtain ⟨kv, _, rfl⟩ := List.mem_map.mp hp
    exact ⟨(hper kv.1).1, (hper kv.1).2.1,
      kv.1, (hper kv.1).2.2, happ kv.1⟩
  constructor
  · intro m hm p hp
    rcases List.mem_cons.mp hm with h | hm
    · subst h; exact handle ".histogram" (histogramFields v hs) p hp
    rcases List.mem_cons.mp hm with h | hm
    · subst h; exact handle ".meter" (meterFields ms) p hp
    rcases List.mem_cons.mp hm with h | hm
    · subst h; exact handle ".timer" (timerFields v ts) p hp
    · cases hm
  · intro m hm p hp
    rcases List.mem_cons.mp hm with h | hm
    · subst h
      rcases List.mem_singleton.mp hp with rfl; rfl
    rcases List.mem_cons.mp hm with h | hm
    · subst h
      rcases List.mem_singleton.mp hp with rfl; rfl
    rcases List.mem_cons.mp hm with h | hm
    · subst h
      rcases List.mem_singleton.mp hp with rfl; rfl
    · cases hm

/-- C4 witness: the amended theorem at a default tag map {"host" ↦ "h1"}
with the second copy's statistic tag key "bucket". -/
theorem tag_composition_witness :
    ([(("host" : String), ("h1" : String))].map Prod.fst).Nodup
    ∧ statTagKey .v2 ∉ [(("host" : String), ("h1" : String))].map Prod.fst
    ∧ ((∀ m ∈ [Metric.histogram histSnapEx, Metric.meter meterSnapEx,
               Metric.timer timerSnapEx],
         ∀ p ∈ pointsForMetric .v2 "m" [("host", "h1")] 0 "n" m,
           (∀ kv ∈ [(("host" : String), ("h1" : String))],
              tagLookup p.tags kv.1 = some kv.2)
           ∧ p.tags.length = [(("host" : String), ("h1" : String))].length + 1
           ∧ ∃ s, tagLookup p.tags (statTagKey .v2) = some s
               ∧ p.tags = [("host", "h1")] ++ [(statTagKey .v2, s)])
       ∧ (∀ m ∈ [Metric.counter 1, Metric.gauge 2, Metric.gaugeFloat64 3],
         ∀ p ∈ pointsForMetric .v2 "m" [("host", "h1")] 0 "n" m,
           p.tags = [("host", "h1")])) :=
  ⟨by decide, by decide,
   tag_composition .v2 "m" "n" [("host", "h1")] 0 (by decide) (by decide)
     1 2 3 histSnapEx meterSnapEx timerSnapEx⟩

/-- C7: when the endpoint URL string fails to parse, `InfluxDBWithTags`
logs an error and returns without constructing a client and without
starting the loop; when it parses, the reporter is built with a client
constructed from the rendered URL and token and the loop is entered. -/
theorem construction_url_parse (parse : String → Option URL)
    (registry : Registry) (interval : Int)
    (serverUrl org bucket meas token : String) (tags : TagMap)
    (align : Bool) :
    (parse serverUrl = none →
       InfluxDBWithTags parse registry interval serverUrl org bucket meas
           token tags align
         = .notStarted ("unable to parse InfluxDB serverURL " ++ serverUrl))
    ∧ ∀ u, parse serverUrl = some u →
        ∃ r, InfluxDBWithTags parse registry interval serverUrl org bucket
               meas token tags align = .started r
          ∧ r.client = some ⟨u.rendered, token⟩
          ∧ r.registry = registry ∧ r.interval = interval ∧ r.align = align
          ∧ r.serverURL = u.rendered ∧ r.organizationId = org
          ∧ r.bucketId = bucket ∧ r.measurement = meas ∧ r.token = token
          ∧ r.tags = tags := by
  constructor
  · intro h; simp [InfluxDBWithTags, h]
  · intro u h
    have hstart : InfluxDBWithTags parse registry interval serverUrl org
        bucket meas token tags align
        = .started (makeClient
            { registry := registry, interval := interval, align := align
              serverURL := u.rendered, organizationId := org
              bucketId := bucket, measurement := meas, token := token
              tags := tags, client := none }) := by
      simp [InfluxDBWithTags, h]
    exact ⟨_, hstart, rfl, rfl, rfl, rfl, rfl, rfl, rfl, rfl, rfl, rfl⟩

/-- C7 witness: the theorem with a parser that always fails, and with one
that renders the input string unchanged. -/
theorem construction_url_parse_witness :
    (InfluxDBWithTags (fun _ => none) [] 1 "u" "o" "b" "m" "t" [] false
       = .notStarted ("unable to parse InfluxDB serverURL " ++ "u"))
    ∧ ∃ r, InfluxDBWithTags (fun s => some ⟨s⟩) [] 1 "u" "o" "b" "m" "t" [] false
             = .started r
        ∧ r.client = some ⟨"u", "t"⟩
        ∧ r.registry = [] ∧ r.interval = 1 ∧ r.align = false
        ∧ r.serverURL = "u" ∧ r.organizationId = "o" ∧ r.bucketId = "b"
        ∧ r.measurement = "m" ∧ r.token = "t" ∧ r.tags = [] :=
  ⟨(construction_url_parse (fun _ => none) [] 1 "u" "o" "b" "m" "t" [] false).1 rfl,
   (construction_url_parse (fun s => some ⟨s⟩) [] 1 "u" "o" "b" "m" "t" [] false).2
     ⟨"u"⟩ rfl⟩

/-- C8: a tick whose blocking write fails logs the error and swallows it:
the reporter state (every configuration field included) is unchanged, the
failing tick still submitted its batch, and the loop goes on to process
the remaining wake-ups exactly as it would from the same state. -/
theorem write_error_swallowed (v : Variant) (r : Rep) (now : Int)
    (msg : String) (es : List Event) :
    (step v r (.intervalTick now (some msg))).1 = r
    ∧ (step v r (.intervalTick now (some msg))).2.2
        = ["unable to send metrics to InfluxDB. err=" ++ msg]
    ∧ runEvents v r (.intervalTick now (some msg) :: es)
        = ((runEvents v r es).1, sendTick v r now :: (runEvents v r es).2) :=
  ⟨rfl, rfl, rfl⟩

/-- C9: a liveness tick whose readiness ping reports not-ready replaces
the client handle exactly once, with a client built from the same endpoint
URL and token as the previous one, changes no other state, and submits no
points. -/
theorem ping_failure_recreates_client (v : Variant) (r : Rep)
    (perr : Option String) (c : Client) (_hc : r.client = some c)
    (hurl : c.serverURL = r.serverURL) (htok : c.token = r.token) :
    (step v r (.pingTick false perr)).1
        = { r with client := some ⟨c.serverURL, c.token⟩ }
    ∧ (step v r (.pingTick false perr)).2.1 = [] := by
  refine ⟨?_, rfl⟩
  rw [hurl, htok]
  rfl

/-- C9 witness: the theorem at the concrete reporter, whose client handle
was built from its URL and token. -/
theorem ping_failure_recreates_client_witness :
    alignedRepEx.client = some ⟨"http://localhost:9999", "tok"⟩
    ∧ (step .v1 alignedRepEx (.pingTick false none)).1
        = { alignedRepEx with client := some ⟨"http://localhost:9999", "tok"⟩ }
    ∧ (step .v1 alignedRepEx (.pingTick false none)).2.1 = [] :=
  ⟨rfl,
   (ping_failure_recreates_client .v1 alignedRepEx none
      ⟨"http://localhost:9999", "tok"⟩ rfl rfl rfl).1,
   (ping_failure_recreates_client .v1 alignedRepEx none
      ⟨"http://localhost:9999", "tok"⟩ rfl rfl rfl).2⟩

end Reporter
